import Mathlib

/-!
Shallow embedding of the algorithmic core of the g3x-flight-map repository
(nearest-airport resolution, intermediate-stop detection, polyline
simplification, and label placement), together with theorems checking the
specification claims against it.

Embedding conventions:
* JavaScript numbers are modelled as exact rationals.  The Haversine
  distance (`getDistance` in the source) and the Leaflet projection and
  pixel-distance primitives evaluate floating-point transcendentals, so
  they are abstracted as explicit function parameters (`D`, the `MapGeom`
  fields); every theorem below holds for an arbitrary instantiation of
  these parameters, and witnesses instantiate them with concrete
  computable functions.
* JavaScript `x || 0` on a possibly-missing numeric table entry is
  modelled by `jsOrInt`, and the `Infinity` substitution for an absent
  field by `WithTop` with top element.
* Dictionaries (the `airports` catalog, the `existingLabels` maps) are
  association lists iterated in insertion order, matching JS object / Map
  iteration order; `Set` becomes a duplicate-free list.
-/

namespace FlightMap

/-- JS `x || d` for a possibly-undefined integer `x` (`undefined` and `0`
are falsy, every other integer is truthy). -/
def jsOrInt (x : Option Int) (d : Int) : Int :=
  match x with
  | none => d
  | some v => if v = 0 then d else v

/-! ### Constants (src/js/constants.js) -/

def BASE_MIN_LABEL_DISTANCE : ℚ := 50

def BASE_LABEL_MARGIN : ℚ := 20

def MAX_PIXEL_DISTANCE : ℚ := 100

def MIN_ZOOM : ℚ := 4

def MAX_ZOOM : ℚ := 12

def PROXIMITY_THRESHOLD_KM : ℚ := 2

/-- Airport type priority table (higher = better). -/
def AIRPORT_TYPE_PRIORITY : List (String × Int) :=
  [("closed", -1), ("heliport", 0), ("seaplane_base", 1),
   ("small_airport", 2), ("medium_airport", 3), ("large_airport", 3)]

/-- The expression `AIRPORT_TYPE_PRIORITY[t] || 0` of the source, for a
possibly-missing `type` field `t`. -/
def typePriority (t : Option String) : Int :=
  jsOrInt (t.bind fun s => AIRPORT_TYPE_PRIORITY.lookup s) 0

/-! ### Airport catalog entries -/

/-- One catalog value of the `airports` object (the `name` field is never
read by the algorithms and is omitted). The `type` field may be absent. -/
structure Airport where
  lat : ℚ
  lon : ℚ
  type : Option String
deriving DecidableEq, Repr

/-- The record built by `findNearestAirport` for a scanned airport:
`{ code, ...airport, distance }` plus the `priority` field recorded for
close-pool entries.  The source stores `priority` only on close-pool
entries and never reads it on the scan result; we fill it with the same
formula in both cases. -/
structure NearInfo where
  code : String
  lat : ℚ
  lon : ℚ
  type : Option String
  distance : ℚ
  priority : Int
deriving DecidableEq, Repr

/-- Build the `NearInfo` for catalog entry `e` at computed distance `d`. -/
def mkNearInfo (e : String × Airport) (d : ℚ) : NearInfo :=
  { code := e.1, lat := e.2.lat, lon := e.2.lon, type := e.2.type,
    distance := d, priority := typePriority e.2.type }

/-! ### findNearestAirport (src/unnamed/part_000, lines 609-705)

The loop body carries three pieces of state: the running best of the
general scan (`closest`), its distance (`minDistance`, initially
`Infinity`, modelled as the top element), and the within-1-km pool
(`closeAirports`, grown by push, i.e. append). -/

/-- One iteration of the `findNearestAirport` loop over a catalog entry. -/
def scanStep (D : ℚ → ℚ → ℚ → ℚ → ℚ) (lat lon : ℚ)
    (st : Option NearInfo × WithTop ℚ × List NearInfo) (e : String × Airport) :
    Option NearInfo × WithTop ℚ × List NearInfo :=
  let closest := st.1
  let minDistance := st.2.1
  let closeAirports := st.2.2
  let distance := D lat lon e.2.lat e.2.lon
  let closeAirports :=
    if distance ≤ 1 then closeAirports ++ [mkNearInfo e distance] else closeAirports
  if closeAirports.length = 0 then
    let currentPriority := typePriority e.2.type
    let closestPriority := match closest with
      | some c => typePriority c.type
      | none => -1
    if closest.isNone ∨ currentPriority > closestPriority ∨
        (currentPriority = closestPriority ∧ (distance : WithTop ℚ) < minDistance) then
      (some (mkNearInfo e distance), (distance : WithTop ℚ), closeAirports)
    else
      (closest, minDistance, closeAirports)
  else
    (closest, minDistance, closeAirports)

/-- The sort comparator passed to `closeAirports.sort`: negative means the
first argument comes first. -/
def closeCmp (a b : NearInfo) : ℚ :=
  let priorityDiff : Int := b.priority - a.priority
  if priorityDiff ≠ 0 then (priorityDiff : ℚ) else a.distance - b.distance

/-- Comparator-induced order: `a` may be placed before `b`. -/
def closeLe (a b : NearInfo) : Bool :=
  decide (closeCmp a b ≤ 0)

/-- Nearest-airport resolution with the close-pool override
(src/unnamed/part_000:609-705).  `D` abstracts the floating-point
Haversine `getDistance`; `airports` is the catalog in iteration order. -/
def findNearestAirport (D : ℚ → ℚ → ℚ → ℚ → ℚ)
    (airports : List (String × Airport)) (lat lon : ℚ) : Option NearInfo :=
  let st := airports.foldl (scanStep D lat lon) (none, (⊤ : WithTop ℚ), [])
  let closest := st.1
  let closeAirports := st.2.2
  if closeAirports.length > 0 then
    (closeAirports.mergeSort closeLe).head?
  else
    closest

/-- The within-1-km pool that the loop accumulates, in catalog order. -/
def closePool (D : ℚ → ℚ → ℚ → ℚ → ℚ)
    (airports : List (String × Airport)) (lat lon : ℚ) : List NearInfo :=
  (airports.map fun e => mkNearInfo e (D lat lon e.2.lat e.2.lon)).filter
    fun n => decide (n.distance ≤ 1)

/-- A concrete computable stand-in for the floating-point Haversine
distance, used by the witnesses: it reads the distance in km off the
target latitude, so that the witness catalog below realizes exactly the
distances of the spec example (0.5 km and 10 km). -/
def testD : ℚ → ℚ → ℚ → ℚ → ℚ := fun _ _ alat _ =>
  if alat = 1 then mkRat 1 2 else 10

/-- Witness catalog for C2: a large airport 10 km away and a small
airport 0.5 km away from the origin; nothing else within 1 km. -/
def testCatalog : List (String × Airport) :=
  [("BIGGY", { lat := 10, lon := 0, type := some "large_airport" }),
   ("SMALLY", { lat := 1, lon := 0, type := some "small_airport" })]

/-! ### detectIntermediateStops (src/js/constants.js, lines 48-158)

Rows carry the optional `AGL` and `GndSpd` fields; the coordinate fields
model the already-resolved `row.Latitude || row.latitude` value (per the
spec data model, samples reaching the detector have valid coordinates).
The nearest-airport resolver is passed in as a function parameter
(`findNearestAirport` is a free variable of the source module). -/

/-- A flight-data sample row. -/
structure Row where
  AGL : Option ℚ
  GndSpd : Option ℚ
  lat : ℚ
  lon : ℚ
deriving DecidableEq, Repr, Inhabited

/-- JS `row.F !== undefined ? row.F : Infinity` for a numeric field. -/
def jsNumOrInfinity (x : Option ℚ) : WithTop ℚ :=
  match x with
  | some v => (v : WithTop ℚ)
  | none => ⊤

/-- The low-and-slow criterion (line 63):
`(agl <= aglThreshold) || (groundSpeed <= speedThreshold)` after the
Infinity substitution for missing fields. -/
def isLowAndSlow (aglThreshold speedThreshold : ℚ) (row : Row) : Bool :=
  decide (jsNumOrInfinity row.AGL ≤ (aglThreshold : WithTop ℚ)) ||
  decide (jsNumOrInfinity row.GndSpd ≤ (speedThreshold : WithTop ℚ))

/-- One recorded intermediate stop. -/
structure StopRec where
  airport : String
  lat : ℚ
  lon : ℚ
  airportLat : ℚ
  airportLon : ℚ
deriving DecidableEq, Repr, Inhabited

/-- The mutable state of the detection loop. -/
structure DetState where
  intermediateStops : List StopRec
  visitedAirports : List String
  inLowSlowZone : Bool
  lowSlowStartIdx : Int
deriving DecidableEq, Repr

/-- Outcome of the inner deduplication loop (lines 88-129): either the
loop finished without a conflict (`shouldAdd` still true), or it broke at
the first recorded stop within the proximity threshold, deciding to
replace it (`replaceIdx = j`) or to keep it and drop the new stop. -/
inductive DedupDecision where
  | noConflict
  | replaceAt (j : Nat)
  | keepExisting
deriving DecidableEq, Repr

/-- The deduplication loop over already-recorded stops, scanning from
index `j`.  `catalog` is the `airports` object used to look up the
existing stop's type; `nearest` is the newly resolved airport;
`midLat`/`midLon` is the current midpoint sample. -/
def dedupScan (D : ℚ → ℚ → ℚ → ℚ → ℚ) (catalog : List (String × Airport))
    (nearest : NearInfo) (midLat midLon : ℚ) :
    Nat → List StopRec → DedupDecision
  | _, [] => .noConflict
  | j, existingStop :: rest =>
    let distanceBetweenAirports :=
      D nearest.lat nearest.lon existingStop.airportLat existingStop.airportLon
    if distanceBetweenAirports < PROXIMITY_THRESHOLD_KM then
      let existingPriority :=
        typePriority ((catalog.lookup existingStop.airport).bind Airport.type)
      let newPriority := typePriority nearest.type
      if newPriority > existingPriority then .replaceAt j
      else if newPriority = existingPriority then
        let existingDistance :=
          D midLat midLon existingStop.airportLat existingStop.airportLon
        let newDistance := D midLat midLon nearest.lat nearest.lon
        if newDistance < existingDistance then .replaceAt j else .keepExisting
      else .keepExisting
    else
      dedupScan D catalog nearest midLat midLon (j + 1) rest

/-- Processing of a zone exit (lines 69-154 inside the branch): resolve
the midpoint coordinate and add, replace, or drop the candidate stop.
Every outcome leaves the low/slow flag cleared. -/
def processZoneExit (D : ℚ → ℚ → ℚ → ℚ → ℚ) (catalog : List (String × Airport))
    (findNearest : ℚ → ℚ → Option NearInfo) (st : DetState)
    (midLat midLon : ℚ) : DetState :=
  match findNearest midLat midLon with
  | none => { st with inLowSlowZone := false }
  | some nearest =>
    if st.visitedAirports.contains nearest.code then
      { st with inLowSlowZone := false }
    else
      match dedupScan D catalog nearest midLat midLon 0 st.intermediateStops with
      | .replaceAt j =>
        let oldCode := (st.intermediateStops.getD j default).airport
        { intermediateStops := st.intermediateStops.set j
            { airport := nearest.code, lat := midLat, lon := midLon,
              airportLat := nearest.lat, airportLon := nearest.lon },
          visitedAirports := st.visitedAirports.erase oldCode ++ [nearest.code],
          inLowSlowZone := false,
          lowSlowStartIdx := st.lowSlowStartIdx }
      | .noConflict =>
        { intermediateStops := st.intermediateStops ++
            [{ airport := nearest.code, lat := midLat, lon := midLon,
               airportLat := nearest.lat, airportLon := nearest.lon }],
          visitedAirports := st.visitedAirports ++ [nearest.code],
          inLowSlowZone := false,
          lowSlowStartIdx := st.lowSlowStartIdx }
      | .keepExisting => { st with inLowSlowZone := false }

/-- One iteration of the main detection loop at sample index `i`. -/
def detStep (D : ℚ → ℚ → ℚ → ℚ → ℚ) (catalog : List (String × Airport))
    (findNearest : ℚ → ℚ → Option NearInfo) (aglThreshold speedThreshold : ℚ)
    (data : List Row) (st : DetState) (i : Nat) : DetState :=
  let row := data.getD i default
  if isLowAndSlow aglThreshold speedThreshold row && !st.inLowSlowZone then
    { st with inLowSlowZone := true, lowSlowStartIdx := (i : Int) }
  else if !(isLowAndSlow aglThreshold speedThreshold row) && st.inLowSlowZone then
    let midIdx := (Int.fdiv (st.lowSlowStartIdx + (i : Int)) 2).toNat
    let midRow := data.getD midIdx default
    processZoneExit D catalog findNearest st midRow.lat midRow.lon
  else
    st

/-- Intermediate-stop detection (src/js/constants.js:48-158). -/
def detectIntermediateStops (D : ℚ → ℚ → ℚ → ℚ → ℚ)
    (catalog : List (String × Airport)) (findNearest : ℚ → ℚ → Option NearInfo)
    (data : List Row) (aglThreshold speedThreshold : ℚ) : List StopRec :=
  ((List.range data.length).foldl
    (detStep D catalog findNearest aglThreshold speedThreshold data)
    { intermediateStops := [], visitedAirports := [],
      inLowSlowZone := false, lowSlowStartIdx := -1 }).intermediateStops

/-- The detector invariant: recorded stop codes are duplicate-free and the
visited set is exactly the set of recorded codes. -/
def GoodState (st : DetState) : Prop :=
  (st.intermediateStops.map StopRec.airport).Nodup ∧
  st.visitedAirports.Nodup ∧
  ∀ c, c ∈ st.visitedAirports ↔ c ∈ st.intermediateStops.map StopRec.airport

/-- Witness data for C4: one recorded stop of a small airport, and a new
medium airport resolved 0 km away (within 2 km), which must replace it. -/
def wOldStop : StopRec :=
  { airport := "OLDPT", lat := 3, lon := 4, airportLat := 9, airportLon := 10 }

/-- The new resolved airport of the C4 witness. -/
def wNearest : NearInfo :=
  { code := "NEWPT", lat := 7, lon := 8, type := some "medium_airport",
    distance := 0, priority := 3 }

/-- Detector state of the C4 witness: inside a low/slow zone that started
at sample 0, with the old stop recorded. -/
def wState : DetState :=
  { intermediateStops := [wOldStop], visitedAirports := ["OLDPT"],
    inLowSlowZone := true, lowSlowStartIdx := 0 }

/-- Catalog of the C4 witness: the old stop is a small airport. -/
def wCatalog : List (String × Airport) :=
  [("OLDPT", { lat := 9, lon := 10, type := some "small_airport" })]

/-- Track data of the C4 witness: a low/slow sample then a clean exit
sample (no AGL, no ground speed, hence never low-and-slow). -/
def wData : List Row :=
  [{ AGL := some 0, GndSpd := some 0, lat := 3, lon := 4 },
   { AGL := none, GndSpd := none, lat := 5, lon := 6 }]

/-- Distance function of the C4 witness: everything is co-located. -/
def wD : ℚ → ℚ → ℚ → ℚ → ℚ := fun _ _ _ _ => 0

/-- Resolver of the C4 witness. -/
def wFindNearest : ℚ → ℚ → Option NearInfo := fun _ _ => some wNearest

/-- Distance table for the C10 scenarios, keyed off the target latitude:
two airports inside the 1-km pool (0.5 km and 0.9 km) and two outside it
(5 km and 7 km). -/
def uD : ℚ → ℚ → ℚ → ℚ → ℚ := fun _ _ alat _ =>
  if alat = 1 then mkRat 1 2
  else if alat = 2 then mkRat 9 10
  else if alat = 3 then 5 else 7

/-- C10 close-pool catalog: a closed airport at 0.5 km and an airport of
unlisted type at 0.9 km. -/
def uCatalogClose : List (String × Airport) :=
  [("CLOSED1", { lat := 1, lon := 0, type := some "closed" }),
   ("MYSTERY", { lat := 2, lon := 0, type := some "unknown" })]

/-- C10 general-scan catalog: a closed airport at 5 km and an airport
with a missing type field at 7 km; nothing within 1 km. -/
def uCatalogFar : List (String × Airport) :=
  [("CLOSED2", { lat := 3, lon := 0, type := some "closed" }),
   ("MYSTERY2", { lat := 4, lon := 0, type := none })]

/-- C10 dedup scenario: an already-recorded stop at a closed airport. -/
def uOldStop : StopRec :=
  { airport := "CLOSEDX", lat := 0, lon := 0, airportLat := 5, airportLon := 5 }

/-- Catalog entry backing the C10 dedup scenario. -/
def uCatalogDedup : List (String × Airport) :=
  [("CLOSEDX", { lat := 5, lon := 5, type := some "closed" })]

/-- The new unlisted-type airport of the C10 dedup scenario. -/
def uNearest : NearInfo :=
  { code := "MYSTERY3", lat := 6, lon := 6, type := some "unknown",
    distance := 0, priority := 0 }

/-! ### simplifyPolyline (src/js/utils.js, lines 142-203)

Points are [lat, lon] pairs.  `perpendicularDistance` is embedded over
exact rationals, with the Haversine call abstracted as the parameter `D`
as before.  The source recursion consumes strictly shorter slices on
every recursive call whenever epsilon is non-negative; the embedding
makes it structural with a fuel argument initialized to the list length
(which the endpoint theorem shows is never exhausted in that regime, the
fuel-out branch returning the input unchanged). -/

/-- Perpendicular point-to-segment distance (src/js/utils.js:142-164). -/
def perpendicularDistance (D : ℚ → ℚ → ℚ → ℚ → ℚ)
    (point lineStart lineEnd : ℚ × ℚ) : ℚ :=
  let px := point.1
  let py := point.2
  let x1 := lineStart.1
  let y1 := lineStart.2
  let x2 := lineEnd.1
  let y2 := lineEnd.2
  let dx := x2 - x1
  let dy := y2 - y1
  if dx = 0 ∧ dy = 0 then
    D px py x1 y1
  else
    let t := max 0 (min 1 (((px - x1) * dx + (py - y1) * dy) / (dx * dx + dy * dy)))
    let closestX := x1 + t * dx
    let closestY := y1 + t * dy
    D px py closestX closestY

/-- One iteration of the maximum-distance scan of simplifyPolyline
(lines 183-189): record the first index strictly exceeding the running
maximum. -/
def maxStep (D : ℚ → ℚ → ℚ → ℚ → ℚ) (points : List (ℚ × ℚ)) (e : Nat)
    (acc : ℚ × Nat) (i : Nat) : ℚ × Nat :=
  let distance := perpendicularDistance D (points.getD i default)
    (points.getD 0 default) (points.getD e default)
  if acc.1 < distance then (distance, i) else acc

/-- The maximum-distance scan of simplifyPolyline (lines 179-189) over
the interior indices, starting from maximum 0 at index 0. -/
def maxPerpLoop (D : ℚ → ℚ → ℚ → ℚ → ℚ) (points : List (ℚ × ℚ)) (e : Nat) :
    ℚ × Nat :=
  (List.range' 1 (e - 1)).foldl (maxStep D points e) (0, 0)

/-- Ramer-Douglas-Peucker recursion with explicit fuel. -/
def simplifyPolylineAux (D : ℚ → ℚ → ℚ → ℚ → ℚ) (epsilon : ℚ) :
    Nat → List (ℚ × ℚ) → List (ℚ × ℚ)
  | 0, points => points
  | fuel + 1, points =>
    if points.length ≤ 2 then points
    else
      let e := points.length - 1
      let m := maxPerpLoop D points e
      if epsilon < m.1 then
        let leftSegment := simplifyPolylineAux D epsilon fuel (points.take (m.2 + 1))
        let rightSegment := simplifyPolylineAux D epsilon fuel (points.drop m.2)
        leftSegment.dropLast ++ rightSegment
      else
        [points.getD 0 default, points.getD e default]

/-- Polyline simplification (src/js/utils.js:173-203). -/
def simplifyPolyline (D : ℚ → ℚ → ℚ → ℚ → ℚ) (points : List (ℚ × ℚ))
    (epsilon : ℚ) : List (ℚ × ℚ) :=
  simplifyPolylineAux D epsilon points.length points

/-- Distance table for the C5 witness: the interior point of the witness
track is 3 km off its chord, everything else is on it. -/
def pD : ℚ → ℚ → ℚ → ℚ → ℚ := fun px _ _ _ => if px = 5 then 3 else 0

/-- Witness track for C5: out and back over the same endpoint, so the
chord is degenerate and the interior point survives. -/
def pTrack : List (ℚ × ℚ) := [(0, 0), (5, 7), (0, 0)]

/-! ### extractAirportCode (src/js/utils.js, lines 29-32)

The source matches the filename against the regular expression
log_ d8 _ d6 _ ([A-Z0-9] 3to4) .csv-dollar — end-anchored but not
start-anchored.  The embedding replays the regex engine: at each start
position, try the full anchored pattern (greedy 4-character code first,
then backtrack to 3); scan start positions left to right. -/

/-- The character class of A-Z and 0-9. -/
def isUpperAlnum (c : Char) : Bool := c.isUpper || c.isDigit

/-- Consume exactly `n` characters satisfying `p`, returning the rest. -/
def takeExact (p : Char → Bool) : Nat → List Char → Option (List Char)
  | 0, rest => some rest
  | _ + 1, [] => none
  | n + 1, c :: rest => if p c then takeExact p n rest else none

/-- Match the trailing code and extension: 3 or 4 uppercase alphanumerics
followed by the literal .csv at the very end (greedy, 4 first). -/
def codeTail : List Char → Option (List Char)
  | c1 :: c2 :: c3 :: c4 :: rest =>
    if isUpperAlnum c1 && isUpperAlnum c2 && isUpperAlnum c3 && isUpperAlnum c4 &&
        decide (rest = ['.', 'c', 's', 'v']) then
      some [c1, c2, c3, c4]
    else if isUpperAlnum c1 && isUpperAlnum c2 && isUpperAlnum c3 &&
        decide (c4 :: rest = ['.', 'c', 's', 'v']) then
      some [c1, c2, c3]
    else none
  | _ => none

/-- Match the whole pattern anchored at the current position and at
the string end, returning the captured code. -/
def shapeCode (cs : List Char) : Option (List Char) :=
  match cs with
  | 'l' :: 'o' :: 'g' :: '_' :: rest =>
    match takeExact Char.isDigit 8 rest with
    | none => none
    | some rest1 =>
      match rest1 with
      | '_' :: rest2 =>
        match takeExact Char.isDigit 6 rest2 with
        | none => none
        | some rest3 =>
          match rest3 with
          | '_' :: rest4 => codeTail rest4
          | _ => none
      | _ => none
  | _ => none

/-- Scan start positions left to right, as the regex engine does. -/
def regexScan : List Char → Option (List Char)
  | [] => none
  | c :: cs =>
    match shapeCode (c :: cs) with
    | some code => some code
    | none => regexScan cs

/-- Airport-code extraction from a filename (src/js/utils.js:29-32). -/
def extractAirportCode (filename : String) : Option String :=
  (regexScan filename.toList).map fun l => String.mk l

/-! ### Label placement (src/unnamed/part_000, lines 422-567)

Label placement works on projected container points (pixels).  The
Leaflet projection pair and the Euclidean pixel distance evaluate floats,
so they are fields of an abstract `MapGeom` parameter; `sqrtHalf` stands
for the numeric value the source floats compute for cos and sin at odd
multiples of 45 degrees (all source angles are multiples of 45 degrees,
so directions are exact up to that one constant).  The preferred-ring and
spiral searches are factored out as functions returning the accepted
container point (the source immediately converts it back to a LatLng,
which `adjustLabelPosition` does here too); the random fallback angle of
the source becomes the abstract unit direction `fallbackDir`. -/

/-- A placed label record: the anchor, the chosen label position, and
whether a connector line was created (source: `connector !== null`). -/
structure LabelDetails where
  position : ℚ × ℚ
  labelPosition : ℚ × ℚ
  connector : Bool
deriving DecidableEq, Repr

/-- Abstract map geometry: projection, unprojection, pixel distance, and
the float value of the square root of one half. -/
structure MapGeom where
  latLngToContainerPoint : ℚ × ℚ → ℚ × ℚ
  containerPointToLatLng : ℚ × ℚ → ℚ × ℚ
  dist : ℚ × ℚ → ℚ × ℚ → ℚ
  sqrtHalf : ℚ

/-- Component-wise point addition (L.Point.add). -/
def ptAdd (p q : ℚ × ℚ) : ℚ × ℚ := (p.1 + q.1, p.2 + q.2)

/-- Scaling a direction vector by a radius. -/
def ptSmul (r : ℚ) (v : ℚ × ℚ) : ℚ × ℚ := (r * v.1, r * v.2)

/-- Cosine and sine at angle k times 45 degrees, exactly. -/
def dirVec (g : MapGeom) (k : Int) : ℚ × ℚ :=
  match (k % 8).toNat with
  | 0 => (1, 0)
  | 1 => (g.sqrtHalf, g.sqrtHalf)
  | 2 => (0, 1)
  | 3 => (-g.sqrtHalf, g.sqrtHalf)
  | 4 => (-1, 0)
  | 5 => (-g.sqrtHalf, -g.sqrtHalf)
  | 6 => (0, -1)
  | _ => (g.sqrtHalf, -g.sqrtHalf)

/-- Zoom-adjusted label distance and margin
(src/unnamed/part_000:423-429). -/
def getZoomAdjustedValues (zoom : ℚ) : ℚ × ℚ :=
  let zoomFactor := max (3/10) ((zoom - MIN_ZOOM) / (MAX_ZOOM - MIN_ZOOM))
  (BASE_MIN_LABEL_DISTANCE * (1 - zoomFactor * (7/10)),
   BASE_LABEL_MARGIN * (1 - zoomFactor * (7/10)))

/-- The 8 preferred candidate offsets (lines 441-450), as pairs of an
angle in 45-degree units and a radius: above, below, left, right, then
the four diagonals. -/
def preferredPositions (minOffset : ℚ) : List (Int × ℚ) :=
  [(2, minOffset), (-2, minOffset), (4, minOffset), (0, minOffset),
   (1, minOffset), (-1, minOffset), (3, minOffset), (-3, minOffset)]

/-- The overlap check of the candidate loops (lines 461-468 and 496-504):
some existing label with a different key lies strictly within
labelDistance of the test point. -/
def overlapsExisting (g : MapGeom) (airport : String)
    (existingLabels : List (String × LabelDetails)) (testPoint : ℚ × ℚ)
    (labelDistance : ℚ) : Bool :=
  existingLabels.any fun cd =>
    (cd.1 != airport) &&
      decide (g.dist testPoint (g.latLngToContainerPoint cd.2.labelPosition) <
        labelDistance)

/-- The preferred-ring search (lines 452-473): the first of the 8
candidates with no overlap, as a container point. -/
def tryPreferred (g : MapGeom) (airport : String)
    (existingLabels : List (String × LabelDetails)) (point : ℚ × ℚ)
    (labelDistance minOffset : ℚ) : Option (ℚ × ℚ) :=
  ((preferredPositions minOffset).map fun pos =>
      ptAdd point (ptSmul pos.2 (dirVec g pos.1))).find?
    fun testPoint => !(overlapsExisting g airport existingLabels testPoint labelDistance)

/-- The spiral search (lines 475-516): step the angle by 45 degrees per
iteration, bump the radius by labelMargin each full revolution, stop past
MAX_PIXEL_DISTANCE or after the iteration budget. -/
def trySpiral (g : MapGeom) (airport : String)
    (existingLabels : List (String × LabelDetails)) (point : ℚ × ℚ)
    (labelDistance labelMargin : ℚ) :
    Nat → Int → ℚ → Option (ℚ × ℚ)
  | 0, _, _ => none
  | n + 1, angle, radius =>
    let testPoint := ptAdd point (ptSmul radius (dirVec g angle))
    if MAX_PIXEL_DISTANCE < g.dist testPoint point then none
    else if !(overlapsExisting g airport existingLabels testPoint labelDistance) then
      some testPoint
    else
      let angle1 := angle + 1
      if 8 ≤ angle1 then
        trySpiral g airport existingLabels point labelDistance labelMargin n 0
          (radius + labelMargin)
      else
        trySpiral g airport existingLabels point labelDistance labelMargin n angle1
          radius

/-- The non-fallback part of adjustLabelPosition: preferred ring first,
then the spiral with its 32-iteration budget, from the fixed minimum
offset of 20 px. -/
def adjustSearch (g : MapGeom) (airport : String)
    (existingLabels : List (String × LabelDetails)) (point : ℚ × ℚ)
    (labelDistance labelMargin minOffset : ℚ) : Option (ℚ × ℚ) :=
  match tryPreferred g airport existingLabels point labelDistance minOffset with
  | some tp => some tp
  | none =>
    trySpiral g airport existingLabels point labelDistance labelMargin 32 0 minOffset

/-- Label position adjustment (src/unnamed/part_000:432-523).
`fallbackDir` abstracts the unit vector of the random fallback angle. -/
def adjustLabelPosition (g : MapGeom) (fallbackDir : ℚ × ℚ) (zoom : ℚ)
    (airport : String) (position : ℚ × ℚ)
    (existingLabels : List (String × LabelDetails)) : ℚ × ℚ :=
  let v := getZoomAdjustedValues zoom
  let point := g.latLngToContainerPoint position
  let minOffset : ℚ := 20
  match adjustSearch g airport existingLabels point v.1 v.2 minOffset with
  | some tp => g.containerPointToLatLng tp
  | none =>
    g.containerPointToLatLng (ptAdd point (ptSmul MAX_PIXEL_DISTANCE fallbackDir))

/-- Label creation (src/unnamed/part_000:526-567): adjust the position
and record whether a connector line was created, which the source does
iff the adjusted position differs from the anchor in lat or lng. -/
def createAirportLabel (g : MapGeom) (fallbackDir : ℚ × ℚ) (zoom : ℚ)
    (airport : String) (position : ℚ × ℚ)
    (existingLabels : List (String × LabelDetails)) : LabelDetails :=
  let adjustedPosition :=
    adjustLabelPosition g fallbackDir zoom airport position existingLabels
  { position := position, labelPosition := adjustedPosition,
    connector := decide (adjustedPosition.1 ≠ position.1) ||
      decide (adjustedPosition.2 ≠ position.2) }

/-- The sequential placement loop of the callers
(e.g. src/unnamed/part_000:1051-1084): place each anchor against the
labels recorded so far and append the result to the shared map. -/
def placeLabels (g : MapGeom) (fallbackDir : ℚ × ℚ) (zoom : ℚ) :
    List (String × (ℚ × ℚ)) → List (String × LabelDetails) →
    List (String × LabelDetails)
  | [], acc => acc
  | a :: rest, acc =>
    placeLabels g fallbackDir zoom rest
      (acc ++ [(a.1, createAirportLabel g fallbackDir zoom a.1 a.2 acc)])

/-- Concrete geometry for the label witnesses: identity projection and a
squared-Euclidean pixel distance. -/
def g0 : MapGeom :=
  { latLngToContainerPoint := fun p => p,
    containerPointToLatLng := fun p => p,
    dist := fun p q => (p.1 - q.1) * (p.1 - q.1) + (p.2 - q.2) * (p.2 - q.2),
    sqrtHalf := mkRat 7071 10000 }

/-- Witness anchors for C1: two anchors placed in sequence. -/
def c1Anchors : List (String × (ℚ × ℚ)) := [("AAA", (0, 0)), ("BBB", (1000, 0))]

/-- Concrete geometry for the C1 witness: identity projection and a
constant pixel distance of one million (every pair of points is far
apart, so the first preferred candidate is always free). -/
def g1 : MapGeom :=
  { latLngToContainerPoint := fun p => p,
    containerPointToLatLng := fun p => p,
    dist := fun _ _ => 1000000,
    sqrtHalf := mkRat 7071 10000 }

/-- The third state component of one scan iteration: the pool grows by the
entry exactly when its distance is within 1 km. -/
theorem scanStep_pool (D : ℚ → ℚ → ℚ → ℚ → ℚ) (lat lon : ℚ)
    (st : Option NearInfo × WithTop ℚ × List NearInfo) (e : String × Airport) :
    (scanStep D lat lon st e).2.2 =
      if D lat lon e.2.lat e.2.lon ≤ 1 then
        st.2.2 ++ [mkNearInfo e (D lat lon e.2.lat e.2.lon)]
      else st.2.2 := by
  rcases st with ⟨closest, minDistance, closeAirports⟩
  by_cases h : D lat lon e.2.lat e.2.lon ≤ 1 <;>
    simp only [scanStep, h, if_true, if_false] <;>
    (repeat' split) <;> simp_all

/-- After folding the whole catalog, the pool is the initial pool followed
by all within-1-km entries in catalog order. -/
theorem foldl_scanStep_pool (D : ℚ → ℚ → ℚ → ℚ → ℚ) (lat lon : ℚ) :
    ∀ (l : List (String × Airport)) (st : Option NearInfo × WithTop ℚ × List NearInfo),
      (l.foldl (scanStep D lat lon) st).2.2 = st.2.2 ++ closePool D l lat lon := by
  intro l
  induction l with
  | nil => intro st; simp [closePool]
  | cons e l ih =>
    intro st
    rw [List.foldl_cons, ih]
    rw [scanStep_pool]
    unfold closePool
    by_cases h : D lat lon e.2.lat e.2.lon ≤ 1 <;>
      simp [h, mkNearInfo, closePool]

/-- A scan iteration always leaves the state with a non-null running best
or a non-empty pool. -/
theorem scanStep_progress (D : ℚ → ℚ → ℚ → ℚ → ℚ) (lat lon : ℚ)
    (st : Option NearInfo × WithTop ℚ × List NearInfo) (e : String × Airport) :
    (scanStep D lat lon st e).1 ≠ none ∨ (scanStep D lat lon st e).2.2 ≠ [] := by
  rcases st with ⟨closest, minDistance, closeAirports⟩
  rcases closest with _ | c <;>
    simp only [scanStep] <;>
    (repeat' split) <;> simp_all

/-- The progress property is preserved by the rest of the fold. -/
theorem foldl_scanStep_progress (D : ℚ → ℚ → ℚ → ℚ → ℚ) (lat lon : ℚ) :
    ∀ (l : List (String × Airport)) (st : Option NearInfo × WithTop ℚ × List NearInfo),
      (st.1 ≠ none ∨ st.2.2 ≠ []) →
      ((l.foldl (scanStep D lat lon) st).1 ≠ none ∨
        (l.foldl (scanStep D lat lon) st).2.2 ≠ []) := by
  intro l
  induction l with
  | nil => intro st h; simpa using h
  | cons e l ih =>
    intro st _
    rw [List.foldl_cons]
    exact ih _ (scanStep_progress D lat lon st e)

/-- Claim C7: findNearestAirport returns null exactly on the empty
catalog; for every non-empty catalog and every query coordinate (and every
distance function, hence with no cap on the search radius) it returns some
airport. -/
theorem findNearestAirport_none_iff (D : ℚ → ℚ → ℚ → ℚ → ℚ)
    (airports : List (String × Airport)) (lat lon : ℚ) :
    findNearestAirport D airports lat lon = none ↔ airports = [] := by
  constructor
  · intro h
    by_contra hne
    rcases List.exists_cons_of_ne_nil hne with ⟨e, l, rfl⟩
    have hprog : ((e :: l).foldl (scanStep D lat lon) (none, (⊤ : WithTop ℚ), [])).1 ≠ none ∨
        ((e :: l).foldl (scanStep D lat lon) (none, (⊤ : WithTop ℚ), [])).2.2 ≠ [] := by
      rw [List.foldl_cons]
      exact foldl_scanStep_progress D lat lon l _
        (scanStep_progress D lat lon (none, (⊤ : WithTop ℚ), []) e)
    simp only [findNearestAirport] at h
    by_cases hlen :
        0 < ((e :: l).foldl (scanStep D lat lon) (none, (⊤ : WithTop ℚ), [])).2.2.length
    · rw [if_pos hlen, List.head?_eq_none_iff] at h
      have hpl := (List.mergeSort_perm
        ((e :: l).foldl (scanStep D lat lon) (none, (⊤ : WithTop ℚ), [])).2.2 closeLe).length_eq
      rw [h] at hpl
      simp only [List.length_nil] at hpl
      omega
    · rw [if_neg hlen] at h
      rcases hprog with hc | hp
      · exact hc h
      · refine hp ?_
        rw [← List.length_eq_zero]
        omega
  · intro h
    subst h
    rfl

/-- The comparator order spelt out: `a` may precede `b` iff `a` has
strictly higher priority, or equal priority and no larger distance. -/
theorem closeLe_iff (a b : NearInfo) :
    closeLe a b = true ↔
      b.priority < a.priority ∨ (b.priority = a.priority ∧ a.distance ≤ b.distance) := by
  unfold closeLe closeCmp
  by_cases h : (b.priority - a.priority : Int) = 0
  · have hba : b.priority = a.priority := by omega
    simp [h, hba, sub_nonpos]
  · have hne : b.priority ≠ a.priority := by omega
    simp only [h, ne_eq, not_false_eq_true, if_true, decide_eq_true_eq]
    constructor
    · intro hle
      left
      have hle2 : (b.priority - a.priority : Int) ≤ 0 := by exact_mod_cast hle
      omega
    · rintro (hlt | ⟨heq, _⟩)
      · have : (b.priority - a.priority : Int) ≤ 0 := by omega
        exact_mod_cast this
      · exact absurd heq hne

/-- The comparator order is total. -/
theorem closeLe_total (a b : NearInfo) : closeLe a b || closeLe b a := by
  rcases lt_trichotomy b.priority a.priority with h | h | h
  · simp [closeLe_iff, h]
  · rcases le_total a.distance b.distance with hd | hd
    · simp [closeLe_iff, h, hd]
    · simp [closeLe_iff, h.symm, hd]
  · simp [closeLe_iff, h]

/-- The comparator order is transitive. -/
theorem closeLe_trans (a b c : NearInfo) :
    closeLe a b → closeLe b c → closeLe a c := by
  simp only [closeLe_iff]
  rintro (h1 | ⟨h1, h1d⟩) (h2 | ⟨h2, h2d⟩)
  · exact Or.inl (h2.trans h1)
  · exact Or.inl (h2 ▸ h1)
  · exact Or.inl (h1 ▸ h2)
  · exact Or.inr ⟨h1 ▸ h2, le_trans h1d h2d⟩

/-- The head of the comparator-sorted list is a member and is maximal:
no element strictly beats it under priority-then-distance. -/
theorem mergeSort_head_min (l : List NearInfo) (hl : l ≠ []) :
    ∃ c, (l.mergeSort closeLe).head? = some c ∧ c ∈ l ∧
      ∀ m ∈ l, closeLe c m := by
  have hperm := List.mergeSort_perm l closeLe
  have hsorted := List.sorted_mergeSort closeLe_trans closeLe_total l
  rcases hms : l.mergeSort closeLe with _ | ⟨c, t⟩
  · rw [hms] at hperm
    exact absurd hperm.symm.eq_nil hl
  · refine ⟨c, rfl, ?_, ?_⟩
    · exact hperm.mem_iff.mp (hms ▸ List.mem_cons_self c t)
    · intro m hm
      have hmem : m ∈ c :: t := hms ▸ hperm.symm.mem_iff.mp hm
      rcases List.mem_cons.mp hmem with rfl | hmt
      · simp [closeLe_iff]
      · rw [hms] at hsorted
        exact List.rel_of_pairwise_cons hsorted hmt

/-- Claim C2: whenever the within-1-km pool is non-empty,
findNearestAirport returns a member of that pool, maximal under the
priority-then-distance rule, regardless of any farther airport. -/
theorem findNearestAirport_close_pool_override (D : ℚ → ℚ → ℚ → ℚ → ℚ)
    (airports : List (String × Airport)) (lat lon : ℚ)
    (hpool : closePool D airports lat lon ≠ []) :
    ∃ c, findNearestAirport D airports lat lon = some c ∧
      c ∈ closePool D airports lat lon ∧
      ∀ m ∈ closePool D airports lat lon,
        m.priority ≤ c.priority ∧ (m.priority = c.priority → c.distance ≤ m.distance) := by
  have hacc : (airports.foldl (scanStep D lat lon) (none, (⊤ : WithTop ℚ), [])).2.2 =
      closePool D airports lat lon := by
    rw [foldl_scanStep_pool]
    simp
  rcases mergeSort_head_min (closePool D airports lat lon) hpool with ⟨c, hhead, hmem, hmin⟩
  refine ⟨c, ?_, hmem, ?_⟩
  · simp only [findNearestAirport, hacc]
    rw [if_pos (by simpa [List.length_pos] using hpool), hhead]
  · intro m hm
    have h := (closeLe_iff c m).mp (hmin m hm)
    rcases h with h | ⟨h, hd⟩
    · exact ⟨le_of_lt h, fun he => absurd he (ne_of_lt h)⟩
    · exact ⟨le_of_eq h, fun _ => hd⟩

/-- The witness catalog realizes the spec example distances. -/
theorem testCatalog_distances :
    testD 0 0 1 0 = mkRat 1 2 ∧ testD 0 0 10 0 = 10 := by decide

unseal List.merge List.mergeSort in
/-- Witness for C2 at the concrete catalog of the spec example: the close
pool is the singleton small airport at 0.5 km and it is returned, not the
large airport at 10 km. -/
theorem findNearestAirport_close_pool_override_witness :
    closePool testD testCatalog 0 0 ≠ [] ∧
    (∃ c, findNearestAirport testD testCatalog 0 0 = some c ∧
      c ∈ closePool testD testCatalog 0 0 ∧
      ∀ m ∈ closePool testD testCatalog 0 0,
        m.priority ≤ c.priority ∧ (m.priority = c.priority → c.distance ≤ m.distance)) ∧
    (findNearestAirport testD testCatalog 0 0).map NearInfo.code = some "SMALLY" :=
  ⟨by decide, findNearestAirport_close_pool_override testD testCatalog 0 0 (by decide),
    by decide⟩

/-- A replacement decision always points at an existing index. -/
theorem dedupScan_replaceAt_lt (D : ℚ → ℚ → ℚ → ℚ → ℚ)
    (catalog : List (String × Airport)) (nearest : NearInfo) (midLat midLon : ℚ) :
    ∀ (l : List StopRec) (j0 j : Nat),
      dedupScan D catalog nearest midLat midLon j0 l = .replaceAt j →
      j0 ≤ j ∧ j - j0 < l.length := by
  intro l
  induction l with
  | nil => intro j0 j h; simp [dedupScan] at h
  | cons s rest ih =>
    intro j0 j h
    unfold dedupScan at h
    by_cases hd : D nearest.lat nearest.lon s.airportLat s.airportLon <
        PROXIMITY_THRESHOLD_KM
    · rw [if_pos hd] at h
      dsimp only at h
      repeat' split at h
      all_goals simp_all
    · rw [if_neg hd] at h
      have := ih (j0 + 1) j h
      constructor <;> [omega; (simp only [List.length_cons]; omega)]

/-- Setting a fresh element preserves duplicate-freedom. -/
theorem nodup_set_of_not_mem {α : Type} [DecidableEq α] {l : List α} {a : α}
    (h : l.Nodup) (ha : a ∉ l) : ∀ j, (l.set j a).Nodup := by
  induction l with
  | nil => intro j; simp
  | cons x xs ih =>
    intro j
    cases j with
    | zero =>
      simp only [List.set]
      rw [List.nodup_cons] at h ⊢
      refine ⟨fun hm => ha (List.mem_cons_of_mem x hm), h.2⟩
    | succ n =>
      simp only [List.set]
      rw [List.nodup_cons] at h ⊢
      refine ⟨fun hm => ?_, ih h.2 (fun hm => ha (List.mem_cons_of_mem x hm)) n⟩
      rcases List.mem_or_eq_of_mem_set hm with hm | rfl
      · exact h.1 hm
      · exact ha (List.mem_cons_self x xs)

/-- Membership in a list after setting a fresh element at a valid index,
for a duplicate-free list. -/
theorem mem_set_iff_of_nodup {α : Type} [DecidableEq α] {l : List α} {a : α}
    (h : l.Nodup) (ha : a ∉ l) :
    ∀ (j : Nat) (hj : j < l.length) (c : α),
      c ∈ l.set j a ↔ c = a ∨ (c ∈ l ∧ c ≠ l[j]) := by
  induction l with
  | nil => intro j hj; simp at hj
  | cons x xs ih =>
    intro j hj c
    cases j with
    | zero =>
      simp only [List.set, List.getElem_cons_zero, List.mem_cons]
      rw [List.nodup_cons] at h
      constructor
      · rintro (rfl | hm)
        · exact Or.inl rfl
        · exact Or.inr ⟨Or.inr hm, fun he => h.1 (he ▸ hm)⟩
      · rintro (rfl | ⟨hm | hm, hne⟩)
        · exact Or.inl rfl
        · exact absurd hm hne
        · exact Or.inr hm
    | succ n =>
      simp only [List.set, List.getElem_cons_succ, List.mem_cons]
      rw [List.nodup_cons] at h
      have hxa : x ≠ a := fun he => ha (he ▸ List.mem_cons_self x xs)
      have hn : n < xs.length := by simpa using hj
      rw [ih h.2 (fun hm => ha (List.mem_cons_of_mem x hm)) n hn c]
      constructor
      · rintro (rfl | (rfl | hm))
        · exact Or.inr ⟨Or.inl rfl, fun he => h.1 (he ▸ List.getElem_mem hn)⟩
        · exact Or.inl rfl
        · exact Or.inr ⟨Or.inr hm.1, hm.2⟩
      · rintro (rfl | ⟨hm | hm, hne⟩)
        · exact Or.inr (Or.inl rfl)
        · exact Or.inl hm
        · exact Or.inr (Or.inr ⟨hm, hne⟩)

/-- Zone-exit processing preserves the detector invariant. -/
theorem processZoneExit_good (D : ℚ → ℚ → ℚ → ℚ → ℚ)
    (catalog : List (String × Airport)) (findNearest : ℚ → ℚ → Option NearInfo)
    (st : DetState) (midLat midLon : ℚ) (h : GoodState st) :
    GoodState (processZoneExit D catalog findNearest st midLat midLon) := by
  obtain ⟨hnodup, hvnodup, hiff⟩ := h
  unfold processZoneExit
  rcases hfn : findNearest midLat midLon with _ | nearest
  · exact ⟨hnodup, hvnodup, hiff⟩
  · dsimp only
    by_cases hvis : st.visitedAirports.contains nearest.code
    · rw [if_pos hvis]
      exact ⟨hnodup, hvnodup, hiff⟩
    · rw [if_neg hvis]
      have hnotmem : nearest.code ∉ st.visitedAirports := by
        intro hm
        exact hvis (by simpa [List.contains, List.elem_iff] using hm)
      have hnotcode : nearest.code ∉ st.intermediateStops.map StopRec.airport :=
        fun hm => hnotmem ((hiff nearest.code).mpr hm)
      rcases hscan : dedupScan D catalog nearest midLat midLon 0 st.intermediateStops
        with _ | j | _
      · refine ⟨?_, ?_, ?_⟩
        · rw [List.map_append, List.nodup_append]
          refine ⟨hnodup, by simp, ?_⟩
          intro c hc hm
          simp only [List.map_cons, List.map_nil, List.mem_singleton] at hm
          subst hm
          exact hnotcode hc
        · rw [List.nodup_append]
          refine ⟨hvnodup, List.nodup_singleton _, ?_⟩
          intro c hc hm
          rw [List.mem_singleton] at hm
          subst hm
          exact hnotmem hc
        · intro c
          simp only [List.map_append, List.mem_append, List.map_cons, List.map_nil,
            List.mem_singleton, hiff c, List.mem_cons, List.not_mem_nil, or_false]
      · have hj : j < st.intermediateStops.length := by
          have := dedupScan_replaceAt_lt D catalog nearest midLat midLon
            st.intermediateStops 0 j hscan
          omega
        have hjm : j < (st.intermediateStops.map StopRec.airport).length := by
          simpa using hj
        have hold : (st.intermediateStops.getD j default).airport =
            (st.intermediateStops.map StopRec.airport)[j] := by
          rw [List.getD_eq_getElem _ _ hj, List.getElem_map]
        refine ⟨?_, ?_, ?_⟩
        · rw [List.map_set]
          exact nodup_set_of_not_mem hnodup hnotcode j
        · rw [List.nodup_append]
          refine ⟨hvnodup.erase _, List.nodup_singleton _, ?_⟩
          intro c hc hm
          rw [List.mem_singleton] at hm
          subst hm
          exact hnotmem ((hvnodup.mem_erase_iff.mp hc).2)
        · intro c
          rw [List.map_set, List.mem_append, List.mem_singleton,
            hvnodup.mem_erase_iff,
            mem_set_iff_of_nodup hnodup hnotcode j hjm c, hold, hiff c]
          tauto
      · exact ⟨hnodup, hvnodup, hiff⟩

/-- One detection step preserves the detector invariant. -/
theorem detStep_good (D : ℚ → ℚ → ℚ → ℚ → ℚ)
    (catalog : List (String × Airport)) (findNearest : ℚ → ℚ → Option NearInfo)
    (aglThreshold speedThreshold : ℚ) (data : List Row) (st : DetState) (i : Nat)
    (h : GoodState st) :
    GoodState (detStep D catalog findNearest aglThreshold speedThreshold data st i) := by
  unfold detStep
  dsimp only
  split
  · exact ⟨h.1, h.2.1, h.2.2⟩
  · split
    · exact processZoneExit_good D catalog findNearest st _ _ h
    · exact h

/-- Claim C3: for every input data array and every pair of thresholds (and
every resolver and catalog), the stop list returned by
detectIntermediateStops never contains two entries with the same airport
code. -/
theorem detectIntermediateStops_codes_nodup (D : ℚ → ℚ → ℚ → ℚ → ℚ)
    (catalog : List (String × Airport)) (findNearest : ℚ → ℚ → Option NearInfo)
    (data : List Row) (aglThreshold speedThreshold : ℚ) :
    ((detectIntermediateStops D catalog findNearest data aglThreshold
      speedThreshold).map StopRec.airport).Nodup := by
  have main : ∀ (l : List Nat) (st : DetState), GoodState st →
      GoodState (l.foldl
        (detStep D catalog findNearest aglThreshold speedThreshold data) st) := by
    intro l
    induction l with
    | nil => intro st h; exact h
    | cons i l ih =>
      intro st h
      exact ih _ (detStep_good D catalog findNearest aglThreshold speedThreshold
        data st i h)
  exact (main (List.range data.length)
    { intermediateStops := [], visitedAirports := [],
      inLowSlowZone := false, lowSlowStartIdx := -1 }
    ⟨List.nodup_nil, List.nodup_nil, by simp⟩).1

/-- Characterization of the deduplication loop when the first recorded
stop within the proximity threshold sits at relative index `j`: the loop
breaks there, replacing exactly when the new airport has strictly higher
priority, or equal priority and a strictly smaller distance to the
midpoint sample. -/
theorem dedupScan_first_conflict (D : ℚ → ℚ → ℚ → ℚ → ℚ)
    (catalog : List (String × Airport)) (nearest : NearInfo) (midLat midLon : ℚ) :
    ∀ (l : List StopRec) (j0 j : Nat) (s : StopRec),
      l[j]? = some s →
      (∀ k, k < j → ∀ s9, l[k]? = some s9 →
        ¬(D nearest.lat nearest.lon s9.airportLat s9.airportLon <
          PROXIMITY_THRESHOLD_KM)) →
      D nearest.lat nearest.lon s.airportLat s.airportLon < PROXIMITY_THRESHOLD_KM →
      dedupScan D catalog nearest midLat midLon j0 l =
        (if typePriority ((catalog.lookup s.airport).bind Airport.type) <
            typePriority nearest.type then
          DedupDecision.replaceAt (j0 + j)
        else if typePriority nearest.type =
            typePriority ((catalog.lookup s.airport).bind Airport.type) then
          (if D midLat midLon nearest.lat nearest.lon <
              D midLat midLon s.airportLat s.airportLon then
            DedupDecision.replaceAt (j0 + j)
          else DedupDecision.keepExisting)
        else DedupDecision.keepExisting) := by
  intro l
  induction l with
  | nil => intro j0 j s hj; simp at hj
  | cons x rest ih =>
    intro j0 j s hj hfirst hclose
    cases j with
    | zero =>
      rw [List.getElem?_cons_zero, Option.some_inj] at hj
      subst hj
      unfold dedupScan
      rw [if_pos hclose]
      simp only [gt_iff_lt, Nat.add_zero]
    | succ k =>
      rw [List.getElem?_cons_succ] at hj
      have hx : ¬(D nearest.lat nearest.lon x.airportLat x.airportLon <
          PROXIMITY_THRESHOLD_KM) :=
        hfirst 0 (Nat.succ_pos k) x List.getElem?_cons_zero
      unfold dedupScan
      rw [if_neg hx]
      have := ih (j0 + 1) k s hj
        (fun m hm s9 hs9 => hfirst (m + 1) (by omega) s9
          (by rw [List.getElem?_cons_succ]; exact hs9)) hclose
      rw [this]
      have harith : j0 + 1 + k = j0 + (k + 1) := by omega
      rw [harith]

/-- Claim C4: at a zone exit whose resolved airport conflicts (strictly
within PROXIMITY_THRESHOLD_KM) with a recorded stop, exactly one of the
two survives: the new stop replaces the conflicting one iff it has
strictly higher type priority, or equal priority and strictly smaller
distance to the midpoint sample; in every other case (including an exact
distance tie) the stop list is unchanged and the new stop is dropped. -/
theorem detStep_proximity_conflict (D : ℚ → ℚ → ℚ → ℚ → ℚ)
    (catalog : List (String × Airport)) (findNearest : ℚ → ℚ → Option NearInfo)
    (aglThreshold speedThreshold : ℚ) (data : List Row) (st : DetState) (i : Nat)
    (midRow : Row) (nearest : NearInfo) (j : Nat) (s : StopRec)
    (hz : st.inLowSlowZone = true)
    (hrow : isLowAndSlow aglThreshold speedThreshold (data.getD i default) = false)
    (hmid : midRow = data.getD ((Int.fdiv (st.lowSlowStartIdx + (i : Int)) 2).toNat)
      default)
    (hfn : findNearest midRow.lat midRow.lon = some nearest)
    (hvis : st.visitedAirports.contains nearest.code = false)
    (hj : st.intermediateStops[j]? = some s)
    (hfirst : ∀ k, k < j → ∀ s9, st.intermediateStops[k]? = some s9 →
      ¬(D nearest.lat nearest.lon s9.airportLat s9.airportLon <
        PROXIMITY_THRESHOLD_KM))
    (hclose : D nearest.lat nearest.lon s.airportLat s.airportLon <
      PROXIMITY_THRESHOLD_KM) :
    (detStep D catalog findNearest aglThreshold speedThreshold data st i).intermediateStops =
      if typePriority ((catalog.lookup s.airport).bind Airport.type) <
            typePriority nearest.type ∨
          (typePriority nearest.type =
              typePriority ((catalog.lookup s.airport).bind Airport.type) ∧
            D midRow.lat midRow.lon nearest.lat nearest.lon <
              D midRow.lat midRow.lon s.airportLat s.airportLon) then
        st.intermediateStops.set j
          { airport := nearest.code, lat := midRow.lat, lon := midRow.lon,
            airportLat := nearest.lat, airportLon := nearest.lon }
      else st.intermediateStops := by
  unfold detStep
  dsimp only
  rw [hz, hrow]
  simp only [Bool.false_and, Bool.not_false, Bool.true_and, Bool.and_true, if_false,
    if_true, Bool.false_eq_true, Bool.not_true]
  rw [← hmid]
  unfold processZoneExit
  rw [hfn]
  dsimp only
  rw [hvis]
  simp only [Bool.false_eq_true, if_false]
  rw [dedupScan_first_conflict D catalog nearest midRow.lat midRow.lon
    st.intermediateStops 0 j s hj hfirst hclose]
  by_cases h1 : typePriority ((catalog.lookup s.airport).bind Airport.type) <
      typePriority nearest.type
  · rw [if_pos h1, if_pos (Or.inl h1)]
    simp
  · rw [if_neg h1]
    by_cases h2 : typePriority nearest.type =
        typePriority ((catalog.lookup s.airport).bind Airport.type)
    · rw [if_pos h2]
      by_cases h3 : D midRow.lat midRow.lon nearest.lat nearest.lon <
          D midRow.lat midRow.lon s.airportLat s.airportLon
      · rw [if_pos h3, if_pos (Or.inr ⟨h2, h3⟩)]
        simp
      · rw [if_neg h3, if_neg (by rintro (h | ⟨_, hd⟩) <;> [exact h1 h; exact h3 hd])]
    · rw [if_neg h2, if_neg (by rintro (h | ⟨hd, _⟩) <;> [exact h1 h; exact h2 hd])]

/-- Witness for C4: with a strictly higher-priority new airport within the
threshold, the recorded stop is replaced in place. -/
theorem detStep_proximity_conflict_witness :
    (detStep wD wCatalog wFindNearest 20 20 wData wState 1).intermediateStops =
      if typePriority ((wCatalog.lookup wOldStop.airport).bind Airport.type) <
            typePriority wNearest.type ∨
          (typePriority wNearest.type =
              typePriority ((wCatalog.lookup wOldStop.airport).bind Airport.type) ∧
            wD (wData.getD 0 default).lat (wData.getD 0 default).lon
                wNearest.lat wNearest.lon <
              wD (wData.getD 0 default).lat (wData.getD 0 default).lon
                wOldStop.airportLat wOldStop.airportLon) then
        wState.intermediateStops.set 0
          { airport := wNearest.code, lat := (wData.getD 0 default).lat,
            lon := (wData.getD 0 default).lon,
            airportLat := wNearest.lat, airportLon := wNearest.lon }
      else wState.intermediateStops :=
  detStep_proximity_conflict wD wCatalog wFindNearest 20 20 wData wState 1
    (wData.getD 0 default) wNearest 0 wOldStop
    (by decide) (by decide) (by decide) (by decide) (by decide) (by decide)
    (by omega) (by decide)

/-- Claim C6: a sample is low-and-slow iff a present AGL value is at most
the AGL threshold or a present ground-speed value is at most the speed
threshold (an absent field, substituted by Infinity, never satisfies its
comparison); the loop enters a low/slow zone on the first such sample and
records a candidate stop only on the first subsequent sample that is not
low-and-slow, processing the zone exit at the coordinate of the floor
midpoint index between entry and exit. -/
theorem detStep_state_machine (D : ℚ → ℚ → ℚ → ℚ → ℚ)
    (catalog : List (String × Airport)) (findNearest : ℚ → ℚ → Option NearInfo)
    (aglThreshold speedThreshold : ℚ) (data : List Row) (st : DetState) (i : Nat) :
    (∀ row : Row, isLowAndSlow aglThreshold speedThreshold row = true ↔
      ((∃ a, row.AGL = some a ∧ a ≤ aglThreshold) ∨
       (∃ v, row.GndSpd = some v ∧ v ≤ speedThreshold))) ∧
    (st.inLowSlowZone = false →
      isLowAndSlow aglThreshold speedThreshold (data.getD i default) = true →
      detStep D catalog findNearest aglThreshold speedThreshold data st i =
        { st with inLowSlowZone := true, lowSlowStartIdx := (i : Int) }) ∧
    (st.inLowSlowZone = true →
      isLowAndSlow aglThreshold speedThreshold (data.getD i default) = false →
      detStep D catalog findNearest aglThreshold speedThreshold data st i =
        processZoneExit D catalog findNearest st
          (data.getD ((Int.fdiv (st.lowSlowStartIdx + (i : Int)) 2).toNat) default).lat
          (data.getD ((Int.fdiv (st.lowSlowStartIdx + (i : Int)) 2).toNat) default).lon) ∧
    (isLowAndSlow aglThreshold speedThreshold (data.getD i default) = st.inLowSlowZone →
      detStep D catalog findNearest aglThreshold speedThreshold data st i = st) := by
  refine ⟨?_, ?_, ?_, ?_⟩
  · intro row
    unfold isLowAndSlow jsNumOrInfinity
    rcases hA : row.AGL with _ | a <;> rcases hG : row.GndSpd with _ | v <;>
      simp [hA, hG, WithTop.coe_le_coe]
  · intro hz hlow
    unfold detStep
    dsimp only
    rw [hz, hlow]
    simp
  · intro hz hlow
    unfold detStep
    dsimp only
    rw [hz, hlow]
    simp
  · intro heq
    unfold detStep
    dsimp only
    cases hz : st.inLowSlowZone <;> rw [hz] at heq <;> rw [heq] <;> simp

/-- Witness for C6, covering all four conjuncts on concrete data: a
present AGL of 0 triggers the criterion while an all-absent row does not;
the step at index 0 enters the zone; the step at index 1 exits it through
zone processing at the midpoint row; a repeated non-triggering sample
leaves the state unchanged. -/
theorem detStep_state_machine_witness :
    (isLowAndSlow 20 20 (wData.getD 0 default) = true ↔
      ((∃ a, (wData.getD 0 default).AGL = some a ∧ a ≤ 20) ∨
       (∃ v, (wData.getD 0 default).GndSpd = some v ∧ v ≤ 20))) ∧
    (detStep wD wCatalog wFindNearest 20 20 wData
        { intermediateStops := [], visitedAirports := [],
          inLowSlowZone := false, lowSlowStartIdx := -1 } 0 =
      { intermediateStops := [], visitedAirports := [],
        inLowSlowZone := true, lowSlowStartIdx := 0 }) ∧
    (detStep wD wCatalog wFindNearest 20 20 wData wState 1 =
      processZoneExit wD wCatalog wFindNearest wState
        (wData.getD ((Int.fdiv (wState.lowSlowStartIdx + (1 : Int)) 2).toNat)
          default).lat
        (wData.getD ((Int.fdiv (wState.lowSlowStartIdx + (1 : Int)) 2).toNat)
          default).lon) ∧
    (detStep wD wCatalog wFindNearest 20 20 wData
        { intermediateStops := [], visitedAirports := [],
          inLowSlowZone := false, lowSlowStartIdx := -1 } 1 =
      { intermediateStops := [], visitedAirports := [],
        inLowSlowZone := false, lowSlowStartIdx := -1 }) := by
  refine ⟨?_, ?_, ?_, ?_⟩
  · exact (detStep_state_machine wD wCatalog wFindNearest 20 20 wData wState 0).1
      (wData.getD 0 default)
  · exact (detStep_state_machine wD wCatalog wFindNearest 20 20 wData
      { intermediateStops := [], visitedAirports := [],
        inLowSlowZone := false, lowSlowStartIdx := -1 } 0).2.1 (by decide) (by decide)
  · exact (detStep_state_machine wD wCatalog wFindNearest 20 20 wData wState 1).2.2.1
      (by decide) (by decide)
  · exact (detStep_state_machine wD wCatalog wFindNearest 20 20 wData
      { intermediateStops := [], visitedAirports := [],
        inLowSlowZone := false, lowSlowStartIdx := -1 } 1).2.2.2 (by decide)

unseal List.merge List.mergeSort in
/-- Claim C10: a type that is not a key of AIRPORT_TYPE_PRIORITY (or a
missing type field) falls back to priority 0 through the JS or-zero
idiom, tying with heliport and strictly outranking closed; this takes
effect in the close pool, in the general scan, and in intermediate-stop
deduplication. -/
theorem typePriority_unknown_fallback :
    typePriority (some "unknown") = 0 ∧
    typePriority none = 0 ∧
    typePriority (some "unknown") = typePriority (some "heliport") ∧
    typePriority (some "closed") < typePriority (some "unknown") ∧
    (findNearestAirport uD uCatalogClose 0 0).map NearInfo.code = some "MYSTERY" ∧
    (findNearestAirport uD uCatalogFar 0 0).map NearInfo.code = some "MYSTERY2" ∧
    dedupScan wD uCatalogDedup uNearest 0 0 0 [uOldStop] = .replaceAt 0 := by
  refine ⟨by decide, by decide, by decide, by decide, by decide, by decide, by decide⟩

/-- The maximum scan returns a non-negative maximum, and either the
initial accumulator or an interior index. -/
theorem maxPerpLoop_spec (D : ℚ → ℚ → ℚ → ℚ → ℚ) (points : List (ℚ × ℚ))
    (e : Nat) :
    0 ≤ (maxPerpLoop D points e).1 ∧
      (maxPerpLoop D points e = (0, 0) ∨
        (1 ≤ (maxPerpLoop D points e).2 ∧ (maxPerpLoop D points e).2 < e)) := by
  have main : ∀ (l : List Nat) (acc : ℚ × Nat),
      (∀ i ∈ l, 1 ≤ i ∧ i < e) → 0 ≤ acc.1 →
      0 ≤ (l.foldl (maxStep D points e) acc).1 ∧
      (l.foldl (maxStep D points e) acc = acc ∨
        (1 ≤ (l.foldl (maxStep D points e) acc).2 ∧
          (l.foldl (maxStep D points e) acc).2 < e)) := by
    intro l
    induction l with
    | nil => intro acc _ h0; exact ⟨h0, Or.inl rfl⟩
    | cons i l ih =>
      intro acc hmem h0
      rw [List.foldl_cons]
      by_cases hlt : acc.1 < perpendicularDistance D (points.getD i default)
        (points.getD 0 default) (points.getD e default)
      · have hstep : maxStep D points e acc i =
            (perpendicularDistance D (points.getD i default)
              (points.getD 0 default) (points.getD e default), i) := by
          unfold maxStep
          dsimp only
          rw [if_pos hlt]
        rw [hstep]
        have hi := hmem i (List.mem_cons_self i l)
        have hres := ih (perpendicularDistance D (points.getD i default)
            (points.getD 0 default) (points.getD e default), i)
          (fun k hk => hmem k (List.mem_cons_of_mem i hk))
          (le_of_lt (lt_of_le_of_lt h0 hlt))
        refine ⟨hres.1, ?_⟩
        rcases hres.2 with heq | hb
        · rw [heq]
          exact Or.inr hi
        · exact Or.inr hb
      · have hstep : maxStep D points e acc i = acc := by
          unfold maxStep
          dsimp only
          rw [if_neg hlt]
        rw [hstep]
        exact ih acc (fun k hk => hmem k (List.mem_cons_of_mem i hk)) h0
  unfold maxPerpLoop
  exact main (List.range' 1 (e - 1)) (0, 0)
    (fun i hi => by
      rw [List.mem_range'] at hi
      omega)
    le_rfl

/-- The head of a list survives dropping the last element when at least
two elements are present. -/
theorem head?_dropLast_of_two_le {α : Type} (l : List α) (h : 2 ≤ l.length) :
    l.dropLast.head? = l.head? := by
  rcases l with _ | ⟨a, _ | ⟨b, t⟩⟩
  · simp at h
  · simp at h
  · simp [List.dropLast]

/-- Endpoint preservation of the fueled recursion: on an input of length
at least 2 and a non-negative epsilon, the result keeps the first and the
last point and has at least two elements. -/
theorem simplifyPolylineAux_endpoints (D : ℚ → ℚ → ℚ → ℚ → ℚ) (epsilon : ℚ)
    (heps : 0 ≤ epsilon) :
    ∀ (fuel : Nat) (points : List (ℚ × ℚ)), 2 ≤ points.length →
      (simplifyPolylineAux D epsilon fuel points).head? = points.head? ∧
      (simplifyPolylineAux D epsilon fuel points).getLast? = points.getLast? ∧
      2 ≤ (simplifyPolylineAux D epsilon fuel points).length := by
  intro fuel
  induction fuel with
  | zero => intro points h; exact ⟨rfl, rfl, h⟩
  | succ fuel ih =>
    intro points hlen
    unfold simplifyPolylineAux
    by_cases hshort : points.length ≤ 2
    · rw [if_pos hshort]
      exact ⟨rfl, rfl, hlen⟩
    · rw [if_neg hshort]
      dsimp only
      have hspec := maxPerpLoop_spec D points (points.length - 1)
      by_cases hcut : epsilon < (maxPerpLoop D points (points.length - 1)).1
      · rw [if_pos hcut]
        have hbounds : 1 ≤ (maxPerpLoop D points (points.length - 1)).2 ∧
            (maxPerpLoop D points (points.length - 1)).2 < points.length - 1 := by
          rcases hspec.2 with heq | hb
          · rw [heq] at hcut
            exact absurd hcut (not_lt.mpr heps)
          · exact hb
        set m := (maxPerpLoop D points (points.length - 1)).2 with hm
        have hleftlen : 2 ≤ (points.take (m + 1)).length := by
          rw [List.length_take]
          omega
        have hrightlen : 2 ≤ (points.drop m).length := by
          rw [List.length_drop]
          omega
        obtain ⟨hlh, hll, hlL⟩ := ih (points.take (m + 1)) hleftlen
        obtain ⟨hrh, hrl, hrL⟩ := ih (points.drop m) hrightlen
        refine ⟨?_, ?_, ?_⟩
        · rw [List.head?_append]
          rw [head?_dropLast_of_two_le _ hlL, hlh, List.head?_take]
          rw [if_neg (by omega)]
          cases hp : points.head? with
          | none => rw [List.head?_eq_none_iff] at hp; subst hp; simp at hlen
          | some a => rfl
        · rw [List.getLast?_append]
          rw [hrl, List.getLast?_drop, if_neg (by omega)]
          cases hp : points.getLast? with
          | none =>
            rw [List.getLast?_eq_none_iff] at hp
            subst hp
            simp at hlen
          | some a => rfl
        · rw [List.length_append, List.length_dropLast]
          omega
      · rw [if_neg hcut]
        have hidx0 : 0 < points.length := by omega
        have hidxe : points.length - 1 < points.length := by omega
        refine ⟨?_, ?_, by simp⟩
        · rw [List.getD_eq_getElem points default hidx0]
          conv_rhs => rw [List.head?_eq_getElem?, List.getElem?_eq_getElem hidx0]
          simp
        · rw [List.getD_eq_getElem points default hidxe]
          conv_rhs => rw [List.getLast?_eq_getElem?, List.getElem?_eq_getElem hidxe]
          simp

/-- Claim C5: for every input of length at least 2 and every non-negative
epsilon, simplifyPolyline returns a non-empty list that starts with the
first input point and ends with the last input point; inputs of length at
most 2 are returned unchanged. -/
theorem simplifyPolyline_endpoints (D : ℚ → ℚ → ℚ → ℚ → ℚ)
    (points : List (ℚ × ℚ)) (epsilon : ℚ) :
    (2 ≤ points.length → 0 ≤ epsilon →
      (simplifyPolyline D points epsilon ≠ [] ∧
        (simplifyPolyline D points epsilon).head? = points.head? ∧
        (simplifyPolyline D points epsilon).getLast? = points.getLast?)) ∧
    (points.length ≤ 2 → simplifyPolyline D points epsilon = points) := by
  constructor
  · intro hlen heps
    obtain ⟨hh, hl, hL⟩ := simplifyPolylineAux_endpoints D epsilon heps
      points.length points hlen
    refine ⟨?_, hh, hl⟩
    intro hnil
    unfold simplifyPolyline at hnil
    rw [hnil] at hL
    simp at hL
  · intro hlen
    unfold simplifyPolyline
    cases hf : points.length with
    | zero =>
      rw [List.length_eq_zero] at hf
      subst hf
      rfl
    | succ n =>
      unfold simplifyPolylineAux
      rw [if_pos (by omega)]

/-- Witness for C5 on a concrete three-point track with epsilon 1. -/
theorem simplifyPolyline_endpoints_witness :
    (simplifyPolyline pD pTrack 1 ≠ [] ∧
      (simplifyPolyline pD pTrack 1).head? = pTrack.head? ∧
      (simplifyPolyline pD pTrack 1).getLast? = pTrack.getLast?) ∧
    simplifyPolyline pD [(0, 0), (5, 7)] 1 = [(0, 0), (5, 7)] :=
  ⟨(simplifyPolyline_endpoints pD pTrack 1).1 (by decide) (by decide),
   (simplifyPolyline_endpoints pD [(0, 0), (5, 7)] 1).2 (by decide)⟩

/-- Counterexample to C9 as stated: this filename is not of the fixed
shape (it has a leading extra character, so the anchored pattern does not
match it), yet extractAirportCode returns the code instead of null,
because the source regex is not start-anchored. -/
theorem extractAirportCode_not_start_anchored :
    shapeCode ("xlog_20240101_123456_KPAO.csv".toList) = none ∧
    extractAirportCode "xlog_20240101_123456_KPAO.csv" = some "KPAO" := by
  constructor
  · decide
  · decide

/-- The scan finds a code exactly when some start position matches the
anchored pattern and no earlier position does. -/
theorem regexScan_eq_some_iff :
    ∀ (l : List Char) (code : List Char),
      regexScan l = some code ↔
        ∃ i, shapeCode (l.drop i) = some code ∧
          ∀ j, j < i → shapeCode (l.drop j) = none := by
  intro l
  induction l with
  | nil =>
    intro code
    constructor
    · intro h; simp [regexScan] at h
    · rintro ⟨i, hi, _⟩
      rw [List.drop_nil] at hi
      simp [shapeCode] at hi
  | cons c cs ih =>
    intro code
    unfold regexScan
    cases h : shapeCode (c :: cs) with
    | some code0 =>
      constructor
      · intro he
        rw [Option.some_inj] at he
        subst he
        exact ⟨0, by simpa using h, fun j hj => absurd hj (Nat.not_lt_zero j)⟩
      · rintro ⟨i, hi, hfirst⟩
        cases i with
        | zero =>
          rw [List.drop_zero] at hi
          rw [h] at hi
          exact hi
        | succ n =>
          have := hfirst 0 (Nat.succ_pos n)
          rw [List.drop_zero, h] at this
          exact absurd this (by simp)
    | none =>
      rw [ih code]
      constructor
      · rintro ⟨i, hi, hfirst⟩
        refine ⟨i + 1, by simpa using hi, ?_⟩
        intro j hj
        cases j with
        | zero => simpa using h
        | succ m =>
          rw [List.drop_succ_cons]
          exact hfirst m (by omega)
      · rintro ⟨i, hi, hfirst⟩
        cases i with
        | zero =>
          rw [List.drop_zero, h] at hi
          exact absurd hi (by simp)
        | succ n =>
          rw [List.drop_succ_cons] at hi
          refine ⟨n, hi, ?_⟩
          intro j hj
          have := hfirst (j + 1) (by omega)
          rw [List.drop_succ_cons] at this
          exact this

/-- Claim C9, amended: extractAirportCode returns a code exactly when the
leftmost-matching start position exists, i.e. some suffix of the filename
matches the anchored shape log_ d8 _ d6 _ code .csv and no earlier start
position matches; in particular a filename that is entirely of the fixed
shape yields its trailing code, but extra leading characters do not force
null. -/
theorem extractAirportCode_eq_some_iff (filename : String) (c : String) :
    extractAirportCode filename = some c ↔
      ∃ i, shapeCode (filename.toList.drop i) = some c.toList ∧
        ∀ j, j < i → shapeCode (filename.toList.drop j) = none := by
  unfold extractAirportCode
  rw [Option.map_eq_some']
  constructor
  · rintro ⟨l, hl, rfl⟩
    rw [regexScan_eq_some_iff] at hl
    exact hl
  · rintro h
    rw [← regexScan_eq_some_iff] at h
    refine ⟨c.toList, h, ?_⟩
    cases c with
    | mk data => rfl

/-- A point that fails the overlap check is at least labelDistance away
from every existing label with a different key. -/
theorem not_overlaps_far (g : MapGeom) (airport : String)
    (existingLabels : List (String × LabelDetails)) (testPoint : ℚ × ℚ)
    (labelDistance : ℚ)
    (h : overlapsExisting g airport existingLabels testPoint labelDistance = false) :
    ∀ cd ∈ existingLabels, cd.1 ≠ airport →
      labelDistance ≤ g.dist testPoint (g.latLngToContainerPoint cd.2.labelPosition) := by
  unfold overlapsExisting at h
  rw [List.any_eq_false] at h
  intro cd hmem hne
  have := h cd hmem
  simp only [Bool.and_eq_true, decide_eq_true_eq, not_and, bne_iff_ne, ne_eq] at this
  exact not_lt.mp (this hne)

/-- A point accepted by the preferred-ring search passes the overlap
check. -/
theorem tryPreferred_not_overlap (g : MapGeom) (airport : String)
    (existingLabels : List (String × LabelDetails)) (point : ℚ × ℚ)
    (labelDistance minOffset : ℚ) (tp : ℚ × ℚ)
    (h : tryPreferred g airport existingLabels point labelDistance minOffset =
      some tp) :
    overlapsExisting g airport existingLabels tp labelDistance = false := by
  have := List.find?_some h
  simpa using this

/-- A point accepted by the spiral search passes the overlap check. -/
theorem trySpiral_not_overlap (g : MapGeom) (airport : String)
    (existingLabels : List (String × LabelDetails)) (point : ℚ × ℚ)
    (labelDistance labelMargin : ℚ) :
    ∀ (n : Nat) (angle : Int) (radius : ℚ) (tp : ℚ × ℚ),
      trySpiral g airport existingLabels point labelDistance labelMargin n angle
        radius = some tp →
      overlapsExisting g airport existingLabels tp labelDistance = false := by
  intro n
  induction n with
  | zero => intro angle radius tp h; simp [trySpiral] at h
  | succ n ih =>
    intro angle radius tp h
    unfold trySpiral at h
    dsimp only at h
    split at h
    · exact absurd h (by simp)
    · split at h
      · rw [Option.some_inj] at h
        subst h
        rename_i hno
        simpa using hno
      · split at h
        · exact ih 0 (radius + labelMargin) tp h
        · exact ih (angle + 1) radius tp h

/-- A point accepted by the combined search passes the overlap check. -/
theorem adjustSearch_not_overlap (g : MapGeom) (airport : String)
    (existingLabels : List (String × LabelDetails)) (point : ℚ × ℚ)
    (labelDistance labelMargin minOffset : ℚ) (tp : ℚ × ℚ)
    (h : adjustSearch g airport existingLabels point labelDistance labelMargin
      minOffset = some tp) :
    overlapsExisting g airport existingLabels tp labelDistance = false := by
  unfold adjustSearch at h
  cases hp : tryPreferred g airport existingLabels point labelDistance minOffset with
  | some tp0 =>
    rw [hp, Option.some_inj] at h
    subst h
    exact tryPreferred_not_overlap g airport existingLabels point labelDistance
      minOffset tp0 hp
  | none =>
    rw [hp] at h
    exact trySpiral_not_overlap g airport existingLabels point labelDistance
      labelMargin 32 0 minOffset tp h

/-- Splitting the sequential placement loop at a list split. -/
theorem placeLabels_append (g : MapGeom) (fallbackDir : ℚ × ℚ) (zoom : ℚ) :
    ∀ (l1 l2 : List (String × (ℚ × ℚ))) (acc : List (String × LabelDetails)),
      placeLabels g fallbackDir zoom (l1 ++ l2) acc =
        placeLabels g fallbackDir zoom l2 (placeLabels g fallbackDir zoom l1 acc) := by
  intro l1
  induction l1 with
  | nil => intro l2 acc; rfl
  | cons a l1 ih =>
    intro l2 acc
    rw [List.cons_append]
    show placeLabels g fallbackDir zoom (l1 ++ l2)
        (acc ++ [(a.1, createAirportLabel g fallbackDir zoom a.1 a.2 acc)]) =
      placeLabels g fallbackDir zoom l2 (placeLabels g fallbackDir zoom l1
        (acc ++ [(a.1, createAirportLabel g fallbackDir zoom a.1 a.2 acc)]))
    exact ih l2 _

/-- The accumulator is a prefix of the placement result. -/
theorem placeLabels_extends (g : MapGeom) (fallbackDir : ℚ × ℚ) (zoom : ℚ) :
    ∀ (l : List (String × (ℚ × ℚ))) (acc : List (String × LabelDetails)),
      ∃ r, placeLabels g fallbackDir zoom l acc = acc ++ r := by
  intro l
  induction l with
  | nil => intro acc; exact ⟨[], by simp [placeLabels]⟩
  | cons a l ih =>
    intro acc
    unfold placeLabels
    obtain ⟨r, hr⟩ := ih (acc ++ [(a.1, createAirportLabel g fallbackDir zoom a.1 a.2 acc)])
    exact ⟨(a.1, createAirportLabel g fallbackDir zoom a.1 a.2 acc) :: r, by
      rw [hr, List.append_assoc]; rfl⟩

/-- The length of the placement result. -/
theorem placeLabels_length (g : MapGeom) (fallbackDir : ℚ × ℚ) (zoom : ℚ) :
    ∀ (l : List (String × (ℚ × ℚ))) (acc : List (String × LabelDetails)),
      (placeLabels g fallbackDir zoom l acc).length = acc.length + l.length := by
  intro l
  induction l with
  | nil => intro acc; simp [placeLabels]
  | cons a l ih =>
    intro acc
    unfold placeLabels
    rw [ih]
    simp only [List.length_append, List.length_cons, List.length_nil]
    omega

/-- Structure of the placement result around position `j`: the labels
placed before `j`, then the label of anchor `j` placed against exactly
those, then the rest. -/
theorem placeLabels_split_at (g : MapGeom) (fallbackDir : ℚ × ℚ) (zoom : ℚ)
    (anchors : List (String × (ℚ × ℚ))) (j : Nat) (aj : String × (ℚ × ℚ))
    (haj : anchors[j]? = some aj) :
    ∃ r, placeLabels g fallbackDir zoom anchors [] =
      placeLabels g fallbackDir zoom (anchors.take j) [] ++
        (aj.1, createAirportLabel g fallbackDir zoom aj.1 aj.2
          (placeLabels g fallbackDir zoom (anchors.take j) [])) :: r := by
  obtain ⟨hj, haje⟩ := List.getElem?_eq_some.mp haj
  have hsplit : anchors = anchors.take j ++ (aj :: anchors.drop (j + 1)) := by
    conv_lhs => rw [← List.take_append_drop j anchors]
    rw [List.drop_eq_getElem_cons hj, haje]
  have key : placeLabels g fallbackDir zoom anchors [] =
      placeLabels g fallbackDir zoom (aj :: anchors.drop (j + 1))
        (placeLabels g fallbackDir zoom (anchors.take j) []) := by
    conv_lhs => rw [hsplit]
    rw [placeLabels_append]
  obtain ⟨r, hr⟩ := placeLabels_extends g fallbackDir zoom (anchors.drop (j + 1))
    (placeLabels g fallbackDir zoom (anchors.take j) [] ++
      [(aj.1, createAirportLabel g fallbackDir zoom aj.1 aj.2
        (placeLabels g fallbackDir zoom (anchors.take j) []))])
  refine ⟨r, ?_⟩
  rw [key]
  show placeLabels g fallbackDir zoom (anchors.drop (j + 1))
      (placeLabels g fallbackDir zoom (anchors.take j) [] ++
        [(aj.1, createAirportLabel g fallbackDir zoom aj.1 aj.2
          (placeLabels g fallbackDir zoom (anchors.take j) []))]) = _
  rw [hr, List.append_assoc]
  rfl

/-- When the search part succeeds, adjustLabelPosition returns the
unprojection of the accepted container point. -/
theorem adjustLabelPosition_of_search (g : MapGeom) (fallbackDir : ℚ × ℚ)
    (zoom : ℚ) (airport : String) (position : ℚ × ℚ)
    (existingLabels : List (String × LabelDetails)) (tp : ℚ × ℚ)
    (h : adjustSearch g airport existingLabels (g.latLngToContainerPoint position)
      (getZoomAdjustedValues zoom).1 (getZoomAdjustedValues zoom).2 20 = some tp) :
    adjustLabelPosition g fallbackDir zoom airport position existingLabels =
      g.containerPointToLatLng tp := by
  unfold adjustLabelPosition
  dsimp only
  rw [h]

/-- Claim C1: any position returned by the preferred-ring or spiral
search is at pixel distance at least labelDistance from every previously
recorded label with a different key; consequently, in the sequential
placement loop at a fixed zoom, any two recorded labels with distinct
keys whose later one was placed by the search (not the forced fallback)
are separated by at least labelDistance in projected pixels, provided the
projection round-trips and the pixel distance is symmetric. -/
theorem labelPlacement_separation :
    (∀ (g : MapGeom) (airport : String)
      (existingLabels : List (String × LabelDetails)) (point : ℚ × ℚ)
      (labelDistance labelMargin minOffset : ℚ) (tp : ℚ × ℚ),
      adjustSearch g airport existingLabels point labelDistance labelMargin
        minOffset = some tp →
      ∀ cd ∈ existingLabels, cd.1 ≠ airport →
        labelDistance ≤ g.dist tp (g.latLngToContainerPoint cd.2.labelPosition)) ∧
    (∀ (g : MapGeom) (fallbackDir : ℚ × ℚ) (zoom : ℚ)
      (anchors : List (String × (ℚ × ℚ))) (i j : Nat), i < j →
      ∀ (aj : String × (ℚ × ℚ)), anchors[j]? = some aj →
      ∀ (ei ej : String × LabelDetails),
        (placeLabels g fallbackDir zoom anchors [])[i]? = some ei →
        (placeLabels g fallbackDir zoom anchors [])[j]? = some ej →
        ei.1 ≠ aj.1 →
        (∀ p, g.latLngToContainerPoint (g.containerPointToLatLng p) = p) →
        (∀ p q, g.dist p q = g.dist q p) →
        ∀ (tpj : ℚ × ℚ),
          adjustSearch g aj.1 (placeLabels g fallbackDir zoom (anchors.take j) [])
            (g.latLngToContainerPoint aj.2) (getZoomAdjustedValues zoom).1
            (getZoomAdjustedValues zoom).2 20 = some tpj →
        (getZoomAdjustedValues zoom).1 ≤
            g.dist (g.latLngToContainerPoint ej.2.labelPosition)
              (g.latLngToContainerPoint ei.2.labelPosition) ∧
          (getZoomAdjustedValues zoom).1 ≤
            g.dist (g.latLngToContainerPoint ei.2.labelPosition)
              (g.latLngToContainerPoint ej.2.labelPosition)) := by
  have guard : ∀ (g : MapGeom) (airport : String)
      (existingLabels : List (String × LabelDetails)) (point : ℚ × ℚ)
      (labelDistance labelMargin minOffset : ℚ) (tp : ℚ × ℚ),
      adjustSearch g airport existingLabels point labelDistance labelMargin
        minOffset = some tp →
      ∀ cd ∈ existingLabels, cd.1 ≠ airport →
        labelDistance ≤ g.dist tp (g.latLngToContainerPoint cd.2.labelPosition) :=
    fun g airport labels point ld margin minOffset tp h =>
      not_overlaps_far g airport labels tp ld
        (adjustSearch_not_overlap g airport labels point ld margin minOffset tp h)
  refine ⟨guard, ?_⟩
  intro g fallbackDir zoom anchors i j hij aj haj ei ej hei hej hkey hrt hsym tpj hsearch
  obtain ⟨r, hr⟩ := placeLabels_split_at g fallbackDir zoom anchors j aj haj
  have hSlen : (placeLabels g fallbackDir zoom (anchors.take j) []).length = j := by
    rw [placeLabels_length, List.length_take, List.length_nil]
    have := (List.getElem?_eq_some.mp haj).1
    simp only [Nat.zero_add]
    omega
  have heiS : (placeLabels g fallbackDir zoom (anchors.take j) [])[i]? = some ei := by
    rw [hr, List.getElem?_append] at hei
    rwa [if_pos (by omega)] at hei
  have heimem : ei ∈ placeLabels g fallbackDir zoom (anchors.take j) [] :=
    List.getElem?_mem heiS
  have hejv : ej = (aj.1, createAirportLabel g fallbackDir zoom aj.1 aj.2
      (placeLabels g fallbackDir zoom (anchors.take j) [])) := by
    rw [hr, List.getElem?_append_right (by omega)] at hej
    rw [hSlen, Nat.sub_self, List.getElem?_cons_zero, Option.some_inj] at hej
    exact hej.symm
  have hlp : ej.2.labelPosition = g.containerPointToLatLng tpj := by
    rw [hejv]
    show (createAirportLabel g fallbackDir zoom aj.1 aj.2
      (placeLabels g fallbackDir zoom (anchors.take j) [])).labelPosition = _
    unfold createAirportLabel
    dsimp only
    exact adjustLabelPosition_of_search g fallbackDir zoom aj.1 aj.2
      (placeLabels g fallbackDir zoom (anchors.take j) []) tpj hsearch
  have hfar := guard g aj.1 (placeLabels g fallbackDir zoom (anchors.take j) [])
    (g.latLngToContainerPoint aj.2) (getZoomAdjustedValues zoom).1
    (getZoomAdjustedValues zoom).2 20 tpj hsearch ei heimem hkey
  have hpix : g.latLngToContainerPoint ej.2.labelPosition = tpj := by
    rw [hlp, hrt]
  rw [hpix]
  exact ⟨hfar, by rw [hsym]; exact hfar⟩

/-- Claim C8: createAirportLabel creates a connector exactly when the
adjusted position differs from the anchor; and when the first preferred
candidate (directly above, 20 px from the anchor) is free of overlaps,
that candidate is chosen, so under a faithful projection the returned
position differs from the anchor and the connector flag is set. -/
theorem createAirportLabel_connector :
    (∀ (g : MapGeom) (fallbackDir : ℚ × ℚ) (zoom : ℚ) (airport : String)
      (position : ℚ × ℚ) (existingLabels : List (String × LabelDetails)),
      ((createAirportLabel g fallbackDir zoom airport position
          existingLabels).connector = true ↔
        adjustLabelPosition g fallbackDir zoom airport position existingLabels ≠
          position)) ∧
    (∀ (g : MapGeom) (fallbackDir : ℚ × ℚ) (zoom : ℚ) (airport : String)
      (position : ℚ × ℚ) (existingLabels : List (String × LabelDetails)),
      overlapsExisting g airport existingLabels
        (ptAdd (g.latLngToContainerPoint position) (0, 20))
        (getZoomAdjustedValues zoom).1 = false →
      adjustLabelPosition g fallbackDir zoom airport position existingLabels =
        g.containerPointToLatLng
          (ptAdd (g.latLngToContainerPoint position) (0, 20)) ∧
      (Function.Injective g.containerPointToLatLng →
        g.containerPointToLatLng (g.latLngToContainerPoint position) = position →
        adjustLabelPosition g fallbackDir zoom airport position existingLabels ≠
            position ∧
          (createAirportLabel g fallbackDir zoom airport position
            existingLabels).connector = true)) := by
  have part1 : ∀ (g : MapGeom) (fallbackDir : ℚ × ℚ) (zoom : ℚ) (airport : String)
      (position : ℚ × ℚ) (existingLabels : List (String × LabelDetails)),
      ((createAirportLabel g fallbackDir zoom airport position
          existingLabels).connector = true ↔
        adjustLabelPosition g fallbackDir zoom airport position existingLabels ≠
          position) := by
    intro g fallbackDir zoom airport position existingLabels
    unfold createAirportLabel
    dsimp only
    simp only [Bool.or_eq_true, decide_eq_true_eq, ne_eq, Prod.ext_iff, not_and]
    tauto
  refine ⟨part1, ?_⟩
  intro g fallbackDir zoom airport position existingLabels hfree
  have h20 : ptSmul 20 (dirVec g 2) = ((0 : ℚ), (20 : ℚ)) := by
    show ptSmul 20 (0, 1) = ((0 : ℚ), (20 : ℚ))
    unfold ptSmul
    norm_num
  have hpref : tryPreferred g airport existingLabels
      (g.latLngToContainerPoint position) (getZoomAdjustedValues zoom).1 20 =
      some (ptAdd (g.latLngToContainerPoint position) (0, 20)) := by
    unfold tryPreferred preferredPositions
    rw [List.map_cons, List.find?_cons_of_pos, h20]
    rw [h20, hfree]
    rfl
  have hsearch : adjustSearch g airport existingLabels
      (g.latLngToContainerPoint position) (getZoomAdjustedValues zoom).1
      (getZoomAdjustedValues zoom).2 20 =
      some (ptAdd (g.latLngToContainerPoint position) (0, 20)) := by
    unfold adjustSearch
    rw [hpref]
  have hadj := adjustLabelPosition_of_search g fallbackDir zoom airport position
    existingLabels _ hsearch
  refine ⟨hadj, ?_⟩
  intro hinj hrt2
  have hne : adjustLabelPosition g fallbackDir zoom airport position
      existingLabels ≠ position := by
    rw [hadj]
    intro heq
    have heq2 := heq.trans hrt2.symm
    have := hinj heq2
    have h2 := congrArg Prod.snd this
    unfold ptAdd at h2
    simp only at h2
    linarith
  exact ⟨hne, (part1 g fallbackDir zoom airport position existingLabels).mpr hne⟩

/-- Witness for C8: with no existing labels, the label of an anchor at
(5,5) goes to the first preferred candidate 20 px above, differs from the
anchor, and gets a connector. -/
theorem createAirportLabel_connector_witness :
    adjustLabelPosition g0 (1, 0) 4 "KXYZ" (5, 5) [] =
      g0.containerPointToLatLng (ptAdd (g0.latLngToContainerPoint (5, 5)) (0, 20)) ∧
    adjustLabelPosition g0 (1, 0) 4 "KXYZ" (5, 5) [] ≠ (5, 5) ∧
    (createAirportLabel g0 (1, 0) 4 "KXYZ" (5, 5) []).connector = true := by
  have h := createAirportLabel_connector.2 g0 (1, 0) 4 "KXYZ" (5, 5) [] rfl
  have h2 := h.2 (fun a b hab => hab) rfl
  exact ⟨h.1, h2.1, h2.2⟩


/-- The zoom-adjusted values at zoom 4. -/
theorem getZoomAdjustedValues_four :
    getZoomAdjustedValues 4 = (mkRat 79 2, mkRat 79 5) := by
  unfold getZoomAdjustedValues
  dsimp only
  rw [show ((4 : ℚ) - MIN_ZOOM) / (MAX_ZOOM - MIN_ZOOM) = 0 by
    norm_num [MIN_ZOOM, MAX_ZOOM]]
  rw [max_eq_left (by norm_num)]
  rw [Prod.ext_iff]
  constructor <;>
    norm_num [BASE_MIN_LABEL_DISTANCE, BASE_LABEL_MARGIN, Rat.mkRat_eq_div]

/-- When the first preferred candidate is free of overlaps, the
preferred-ring search returns it. -/
theorem tryPreferred_head (g : MapGeom) (airport : String)
    (existingLabels : List (String × LabelDetails)) (point : ℚ × ℚ)
    (labelDistance minOffset : ℚ)
    (h : overlapsExisting g airport existingLabels
      (ptAdd point (ptSmul minOffset (dirVec g 2))) labelDistance = false) :
    tryPreferred g airport existingLabels point labelDistance minOffset =
      some (ptAdd point (ptSmul minOffset (dirVec g 2))) := by
  unfold tryPreferred preferredPositions
  rw [List.map_cons]
  rw [List.find?_cons_of_pos]
  rw [h]
  rfl

/-- Witness for C1: both labels are placed by the preferred ring, and the
pairwise separation bound of the claim holds at the concrete geometry. -/
theorem labelPlacement_separation_witness :
    (getZoomAdjustedValues 4).1 ≤
      g1.dist
        (g1.latLngToContainerPoint
          (createAirportLabel g1 (1, 0) 4 "BBB" (1000, 0)
            (placeLabels g1 (1, 0) 4 (c1Anchors.take 1) [])).labelPosition)
        (g1.latLngToContainerPoint
          (createAirportLabel g1 (1, 0) 4 "AAA" (0, 0) []).labelPosition) ∧
    (getZoomAdjustedValues 4).1 ≤
      g1.dist
        (g1.latLngToContainerPoint
          (createAirportLabel g1 (1, 0) 4 "AAA" (0, 0) []).labelPosition)
        (g1.latLngToContainerPoint
          (createAirportLabel g1 (1, 0) 4 "BBB" (1000, 0)
            (placeLabels g1 (1, 0) 4 (c1Anchors.take 1) [])).labelPosition) := by
  have hov : overlapsExisting g1 "BBB"
      (placeLabels g1 (1, 0) 4 (c1Anchors.take 1) [])
      (ptAdd (g1.latLngToContainerPoint ((1000 : ℚ), (0 : ℚ)))
        (ptSmul 20 (dirVec g1 2)))
      (getZoomAdjustedValues 4).1 = false := by
    show ((("AAA" != "BBB") &&
      decide ((1000000 : ℚ) < (getZoomAdjustedValues 4).1)) || false) = false
    rw [getZoomAdjustedValues_four]
    decide
  have hsearch : adjustSearch g1 "BBB"
      (placeLabels g1 (1, 0) 4 (c1Anchors.take 1) [])
      (g1.latLngToContainerPoint ((1000 : ℚ), (0 : ℚ)))
      (getZoomAdjustedValues 4).1 (getZoomAdjustedValues 4).2 20 =
      some (ptAdd (g1.latLngToContainerPoint ((1000 : ℚ), (0 : ℚ)))
        (ptSmul 20 (dirVec g1 2))) := by
    unfold adjustSearch
    rw [tryPreferred_head g1 "BBB" _ _ _ _ hov]
  exact labelPlacement_separation.2 g1 (1, 0) 4 c1Anchors 0 1 (by omega)
    ("BBB", (1000, 0)) rfl
    ("AAA", createAirportLabel g1 (1, 0) 4 "AAA" (0, 0) [])
    ("BBB", createAirportLabel g1 (1, 0) 4 "BBB" (1000, 0)
      (placeLabels g1 (1, 0) 4 (c1Anchors.take 1) []))
    rfl rfl (by decide)
    (fun p => rfl) (fun p q => rfl)
    (ptAdd (g1.latLngToContainerPoint ((1000 : ℚ), (0 : ℚ)))
      (ptSmul 20 (dirVec g1 2)))
    hsearch

end FlightMap
